import Mathlib

/-!
Shallow embedding of the waitlist admission store and registration flow of
llm-roleplay-main-api.

The admission store is a Redis instance holding four keys
(`waitlist:list` — a list of user ids, `waitlist:emails` / `waitlist:phones` —
hashes from identifier to user id, `waitlist:users` — hash from user id to a
JSON record).  All mutation goes through the Lua script
`REDIS_SCRIPTS.insertUser` (src/src/utils/waitlistUtils.ts, `luaInsertUser`
below); the TypeScript wrapper `insertUser` (`tsInsertUser` below) validates
the raw identifier first and interprets the script's result.  The
registration flow lives in `registerUserController`
(src/src/routes/userManagement.ts) and its helpers
(`userManagementUtils.ts`), embedded as `registerEval` / `processRegister`.
-/

/-- Redis hashes are modelled as association lists (key/value pairs).
`hget` mirrors HGET: the value at the first matching key, if any. -/
def hget (h : List (String × String)) (k : String) : Option String :=
  (h.find? (fun kv => kv.1 = k)).map (fun kv => kv.2)

/-- HSET: overwrite the value at `k` if present, otherwise append the pair. -/
def hset (h : List (String × String)) (k v : String) : List (String × String) :=
  if h.any (fun kv => kv.1 = k) then
    h.map (fun kv => if kv.1 = k then (k, v) else kv)
  else
    h ++ [(k, v)]

/-- One-based position of the first occurrence of `x` in the list, 0 when
absent — exactly the `LRANGE`-and-scan loop shared by the Lua scripts
`getPosition`, `getPositionByIdentifier` and `insertUser`. -/
def queuePos : List String → String → Nat
  | [], _ => 0
  | y :: ys, x =>
      if y = x then 1
      else if queuePos ys x = 0 then 0 else queuePos ys x + 1

/-- The Redis state owned by the admission store: the ordered queue
(`waitlist:list`), the email and phone identity indexes, and the per-entry
user records. -/
structure Store where
  waitlist : List String
  emails : List (String × String)
  phones : List (String × String)
  users : List (String × String)
deriving DecidableEq, Repr

def emptyStore : Store := ⟨[], [], [], []⟩

/-- Identity lookup as performed at the top of the `insertUser` Lua script:
the email hash is consulted first (when the email argument is non-empty),
then the phone hash (when the phone argument is non-empty). -/
def lookupIdentity (st : Store) (email phone : String) : Option String :=
  match (if email ≠ "" then hget st.emails email else none) with
  | some uid => some uid
  | none => if phone ≠ "" then hget st.phones phone else none

/-- The atomic `REDIS_SCRIPTS.insertUser` Lua script
(src/src/utils/waitlistUtils.ts lines 294-361).  Returns the Lua triple
`(position, existed, userIdToUse)` together with the post-state:
if the identity is indexed, the stored record is overwritten and the
existing id and its queue position are returned with `existed = 1`;
otherwise, if `LLEN >= limit`, it returns `(-1, -1, '')` without touching
the state; otherwise the fresh id is RPUSHed, both identifier mappings that
apply are set, the record is stored, and `(LLEN+1, 0, id)` is returned. -/
def luaInsertUser (st : Store) (id email phone : String) (limit : Int)
    (userDataJson : String) : (Int × Int × String) × Store :=
  match lookupIdentity st email phone with
  | some uid =>
      ((Int.ofNat (queuePos st.waitlist uid), 1, uid),
       { st with users := hset st.users uid userDataJson })
  | none =>
      if (st.waitlist.length : Int) ≥ limit then
        ((-1, -1, ""), st)
      else
        (((st.waitlist.length : Int) + 1, 0, id),
         { st with
            waitlist := st.waitlist ++ [id]
            emails := if email ≠ "" then hset st.emails email id else st.emails
            phones := if phone ≠ "" then hset st.phones phone id else st.phones
            users := hset st.users id userDataJson })

/-- The `REDIS_SCRIPTS.getPositionByIdentifier` script: user id via the email
hash, else the phone hash, then a scan of the queue; 0 when absent. -/
def getPositionByIdentifier (st : Store) (identifier : String) : Nat :=
  match hget st.emails identifier with
  | some uid => queuePos st.waitlist uid
  | none =>
      match hget st.phones identifier with
      | some uid => queuePos st.waitlist uid
      | none => 0

/-- The `REDIS_SCRIPTS.isOnWaitlist` script: membership in either hash. -/
def isOnWaitlistCheck (st : Store) (identifier : String) : Bool :=
  (hget st.emails identifier).isSome || (hget st.phones identifier).isSome

/-- Classification of a raw identifier by the TypeScript `insertUser`
wrapper: `validator.isEmail` routes to a lower-cased email; otherwise
`parsePhoneNumberFromString` routes to an E.164 phone when valid; otherwise
the input is invalid.  The two validator libraries are external to this
repository, so the classifier is a parameter. -/
inductive IdentKind where
  | email (sanitized : String)
  | phone (sanitized : String)
  | invalid
deriving DecidableEq, Repr

/-- The `(sanitizedEmail || '', sanitizedPhone || '')` argument pair handed
to the Lua script for each classification outcome. -/
def classifyArgs : IdentKind → Option (String × String)
  | .email e => some (e, "")
  | .phone p => some ("", p)
  | .invalid => none

/-- The `InsertResult` shape returned by the TypeScript `insertUser`. -/
structure InsertResult where
  id : String
  position : Int
  already_existed : Bool
deriving DecidableEq, Repr

/-- The sentinel `{ id: '', position: 0, already_existed: false }` returned
when the raw identifier is invalid. -/
def sentinelResult : InsertResult := ⟨"", 0, false⟩

/-- Outcome of the TypeScript `insertUser`: a normal result, or the
`Waitlist is full` error thrown when the script reports `-1`. -/
inductive InsertOutcome where
  | ok (r : InsertResult)
  | fullError (limit : Int)
deriving DecidableEq, Repr

/-- The `userDataToStore` JSON blob built by `insertUser` from the sanitized
identifiers and the caller metadata (its exact serialization is irrelevant
to the claims; only identity of the stored value matters). -/
def userDataJson (email phone metadata : String) : String :=
  "id:;email:" ++ email ++ ";phone:" ++ phone ++ ";metadata:" ++ metadata

/-- The TypeScript `insertUser` (src/src/utils/waitlistUtils.ts lines
98-172).  `classify` stands for the external email/phone validators applied
to the trimmed username; `finalUserId` is the fresh `uuidv4()`.  Returns the
outcome, the post-state, and whether the Redis script was evaluated
(`false` exactly on the early validation returns). -/
def tsInsertUser (classify : String → IdentKind) (finalUserId : String)
    (st : Store) (username : String) (waitlistLimit : Int)
    (metadata : String) : InsertOutcome × Store × Bool :=
  match classifyArgs (classify username.trim) with
  | none => (.ok sentinelResult, st, false)
  | some (e, p) =>
      if e = "" ∧ p = "" then (.ok sentinelResult, st, false)
      else
        let r := luaInsertUser st finalUserId e p waitlistLimit
          (userDataJson e p metadata)
        let pos := r.1.1
        let existsNum := r.1.2.1
        let returnedUserId := r.1.2.2
        if pos = -1 then (.fullError waitlistLimit, r.2, true)
        else
          (.ok ⟨if existsNum = 1 then returnedUserId else finalUserId,
                pos, existsNum = 1⟩,
           r.2, true)

/-- Response body of `addToWaitlistController` after a completed
`insertUser` call (src: controller lines 174-212): an empty id means the
identifier failed validation and yields `success=false, position=0`; a
thrown full-waitlist error is caught and answered with a 500 of the same
shape; otherwise success with the returned position. -/
structure WaitlistAddResponse where
  status : Nat
  success : Bool
  position : Int
  already_existed : Bool
deriving DecidableEq, Repr

def addToWaitlistRespond : InsertOutcome → WaitlistAddResponse
  | .ok r =>
      if r.id = "" then ⟨200, false, 0, false⟩
      else ⟨200, true, r.position, r.already_existed⟩
  | .fullError _ => ⟨500, false, 0, false⟩

/-- The onboarding settings consumed by the controllers (field names follow
`getCurrentOnboardingSettings`): `waitlist_limit` is the queue capacity,
`signup_cutoff` the waitlist cutoff, `signed_up_users` /
`signed_up_user_limit` the registration count and cap, and
`allowed_registrations` the registration mode string (the value
`"waitlist"` is the spec's WAITLIST_ONLY mode). -/
structure Settings where
  waitlist_limit : Int
  signup_cutoff : Int
  signed_up_users : Int
  signed_up_user_limit : Int
  allowed_registrations : String
deriving DecidableEq, Repr

/-- The eligibility test at line 314 of the source
(`waitlistUserCanSignUpController`):
`settings.signup_cutoff >= 0 && position <= settings.signup_cutoff`. -/
def canSignUpCheck (signup_cutoff position : Int) : Prop :=
  0 ≤ signup_cutoff ∧ position ≤ signup_cutoff

instance (c p : Int) : Decidable (canSignUpCheck c p) := by
  unfold canSignUpCheck; infer_instance

/-- The eligibility test at lines 486-488 of `registerUserController`:
`isUserOnWaitlist && signup_cutoff > 0 && position <= signup_cutoff`. -/
def isWaitlistEligible (position signup_cutoff : Int) : Prop :=
  0 < position ∧ 0 < signup_cutoff ∧ position ≤ signup_cutoff

instance (p c : Int) : Decidable (isWaitlistEligible p c) := by
  unfold isWaitlistEligible; infer_instance

/-- The `userLimitReached` test at lines 490-491 of
`registerUserController`. -/
def userLimitReached (s : Settings) : Prop :=
  0 < s.signed_up_user_limit ∧ s.signed_up_user_limit ≤ s.signed_up_users

instance (s : Settings) : Decidable (userLimitReached s) := by
  unfold userLimitReached; infer_instance

/-- Outcomes of the register-user evaluation.  Each constructor names the
branch of `registerUserController` that handles it:
`alreadyRegistered` ↦ `handleExistingUserRegistration`,
`capacityExhausted` ↦ `handleUserLimitReached`,
`waitlistOnlyIneligible` ↦ `handleWaitlistOnlyRegistration`, the two
blocked outcomes ↦ the branches of `checkWaitlistRegistrationBlocks`, and
`eligibleToRegister` ↦ `attemptUserRegistration`. -/
inductive Outcome where
  | alreadyRegistered
  | capacityExhausted
  | waitlistOnlyIneligible
  | blockedNegativeCutoff
  | blockedBeyondCutoff
  | eligibleToRegister
deriving DecidableEq, Repr

/-- The pure decision core of `registerUserController`
(src/src/routes/userManagement.ts lines 479-538 together with
`checkWaitlistRegistrationBlocks`): which handler a call with the given
already-registered flag, waitlist position and settings is dispatched to. -/
def registerEval (userExists : Bool) (position : Int) (s : Settings) :
    Outcome :=
  if userExists then .alreadyRegistered
  else if userLimitReached s then .capacityExhausted
  else if s.allowed_registrations = "waitlist" ∧
      ¬ isWaitlistEligible position s.signup_cutoff then
    .waitlistOnlyIneligible
  else if 0 < position ∧ s.signup_cutoff < 0 then .blockedNegativeCutoff
  else if 0 < position ∧ s.signup_cutoff < position then .blockedBeyondCutoff
  else .eligibleToRegister

/-- The cutoff test exactly as the spec words it (section 4.3): an identity
with a positive position is cutoff-eligible iff `signupCutoff >= 0` and
`position <= signupCutoff`; an identity with position 0 is never
cutoff-eligible. -/
def cutoffEligible (position signupCutoff : Int) : Prop :=
  0 < position ∧ 0 ≤ signupCutoff ∧ position ≤ signupCutoff

instance (p c : Int) : Decidable (cutoffEligible p c) := by
  unfold cutoffEligible; infer_instance

/-- The eligibility evaluator following the spec's own ordering of checks
(section 4.3, first match wins), stated over the same settings record; the
spec's `registrationCap` / `registeredCount` are `signed_up_user_limit` /
`signed_up_users`, and `registrationMode = WAITLIST_ONLY` is
`allowed_registrations = "waitlist"`. -/
def evaluateSpec (alreadyRegistered : Bool) (position : Int) (s : Settings) :
    Outcome :=
  if alreadyRegistered then .alreadyRegistered
  else if 0 < s.signed_up_user_limit ∧
      s.signed_up_user_limit ≤ s.signed_up_users then .capacityExhausted
  else if s.allowed_registrations = "waitlist" ∧
      ¬ cutoffEligible position s.signup_cutoff then .waitlistOnlyIneligible
  else if 0 < position ∧ ¬ cutoffEligible position s.signup_cutoff then
    (if s.signup_cutoff < 0 then .blockedNegativeCutoff
     else .blockedBeyondCutoff)
  else .eligibleToRegister

/-- Response body of `registerUserController` (only the fields the claims
talk about: HTTP status, `registered_signup`, `on_waitlist`,
`waitlist_position`, and the `already_existed_on_waitlist` metadata flag
that the two waitlist-insert handlers attach — `none` when the handler does
not emit it). -/
structure RegResponse where
  status : Nat
  registered_signup : Bool
  on_waitlist : Bool
  waitlist_position : Int
  already_existed_meta : Option Bool
deriving DecidableEq, Repr

/-- Result of one `register-user` call: the response, the post-state of the
admission store, and whether `insertUser` (admission-store mutation) and
`increment_user_count` (external registration commit) were invoked. -/
structure ProcessOut where
  resp : RegResponse
  store : Store
  insertCalled : Bool
  commitCalled : Bool
deriving DecidableEq, Repr

/-- The orchestration of `registerUserController` after validation
(src lines 479-538 plus the helpers in `userManagementUtils.ts`):
fetch the waitlist position, then dispatch — existing user: answer without
side effects; user limit reached: `insertUser` then answer
(`handleUserLimitReached`, a thrown full-waitlist error becomes a 500);
waitlist-only mode with an ineligible caller: `insertUser` only when not
already on the waitlist (`handleWaitlistOnlyRegistration`); cutoff blocks:
answer with the known position (`checkWaitlistRegistrationBlocks`);
otherwise `attemptUserRegistration`, whose external commit outcome is the
parameter `regSuccess`. -/
def waitlistPositionInt (st : Store) (identifier : String) : Int :=
  (getPositionByIdentifier st identifier : Int)

/-- Response and state change of one waitlist-insert handler call
(the shared body of `handleUserLimitReached` and the not-on-waitlist
branch of `handleWaitlistOnlyRegistration`): on a normal result,
`registered_signup=false`, `on_waitlist` iff the returned id is non-empty,
the returned position, and the `already_existed` flag in the metadata; a
thrown full-waitlist error is caught and answered with a 500. -/
def insertHandler (classify : String → IdentKind) (finalUserId : String)
    (st : Store) (identifier : String) (waitlistLimit : Int) : ProcessOut :=
  match tsInsertUser classify finalUserId st identifier waitlistLimit "" with
  | (.ok r, st2, _) =>
      ⟨⟨200, false, decide (r.id ≠ ""), r.position, some r.already_existed⟩,
       st2, true, false⟩
  | (.fullError _, st2, _) =>
      ⟨⟨500, false, false, 0, none⟩, st2, true, false⟩

def processRegister (classify : String → IdentKind) (finalUserId : String)
    (userExists : Bool) (st : Store) (identifier : String) (s : Settings)
    (regSuccess : Bool) : ProcessOut :=
  if userExists then
    ⟨⟨200, true, decide (0 < waitlistPositionInt st identifier),
      waitlistPositionInt st identifier, none⟩, st, false, false⟩
  else if userLimitReached s then
    insertHandler classify finalUserId st identifier s.waitlist_limit
  else if s.allowed_registrations = "waitlist" ∧
      ¬ isWaitlistEligible (waitlistPositionInt st identifier)
        s.signup_cutoff then
    if ¬ 0 < waitlistPositionInt st identifier then
      insertHandler classify finalUserId st identifier s.waitlist_limit
    else
      ⟨⟨200, false, true, waitlistPositionInt st identifier, none⟩,
       st, false, false⟩
  else if 0 < waitlistPositionInt st identifier ∧ s.signup_cutoff < 0 then
    ⟨⟨200, false, true, waitlistPositionInt st identifier, none⟩,
     st, false, false⟩
  else if 0 < waitlistPositionInt st identifier ∧
      s.signup_cutoff < waitlistPositionInt st identifier then
    ⟨⟨200, false, true, waitlistPositionInt st identifier, none⟩,
     st, false, false⟩
  else if regSuccess then
    ⟨⟨200, true, decide (0 < waitlistPositionInt st identifier),
      waitlistPositionInt st identifier, none⟩, st, false, true⟩
  else
    ⟨⟨500, false, decide (0 < waitlistPositionInt st identifier),
      waitlistPositionInt st identifier, none⟩, st, false, true⟩

/-- Well-formedness of a store: every id recorded in the email or phone
index is a member of the queue.  Holds for every state reachable through
the insert script and is what makes "its 1-based queue position"
meaningful for an indexed identity. -/
def StoreWf (st : Store) : Prop :=
  (∀ kv ∈ st.emails, kv.2 ∈ st.waitlist) ∧
  (∀ kv ∈ st.phones, kv.2 ∈ st.waitlist)

instance (st : Store) : Decidable (StoreWf st) := by
  unfold StoreWf; infer_instance

/-- Arguments of one raw call to the insert script (the fresh uuid, the two
identifier arguments, the serialized record). -/
structure CallArgs where
  id : String
  email : String
  phone : String
  json : String
deriving DecidableEq, Repr

/-- State transition of one insert-script call invoked with capacity `K`. -/
def stepCall (K : Nat) (st : Store) (c : CallArgs) : Store :=
  (luaInsertUser st c.id c.email c.phone (K : Int) c.json).2

/-- The store after a sequence of insert-script calls, all with capacity
`K`, starting from the empty store. -/
def runCalls (K : Nat) (calls : List CallArgs) : Store :=
  calls.foldl (stepCall K) emptyStore

/-- Any admission-store operation: the mutating insert script, or one of
the three read-only scripts (which leave the state untouched). -/
inductive StoreOp where
  | insert (c : CallArgs) (limit : Int)
  | posByIdentifier (identifier : String)
  | onWaitlist (identifier : String)
  | posById (id : String)
deriving DecidableEq, Repr

def applyOp (st : Store) : StoreOp → Store
  | .insert c limit => (luaInsertUser st c.id c.email c.phone limit c.json).2
  | .posByIdentifier _ => st
  | .onWaitlist _ => st
  | .posById _ => st

example : luaInsertUser emptyStore "u1" "a@x.com" "" 2 "d1" =
    ((1, 0, "u1"), ⟨["u1"], [("a@x.com", "u1")], [], [("u1", "d1")]⟩) := by
  decide

example :
    (luaInsertUser ⟨["u1"], [("a@x.com", "u1")], [], [("u1", "d1")]⟩
      "u2" "a@x.com" "" 2 "d2").1 = (1, 1, "u1") := by
  decide

example :
    (luaInsertUser ⟨["u1", "u2"], [("a@x.com", "u1"), ("b@x.com", "u2")], [],
      []⟩ "u3" "c@x.com" "" 2 "d3").1 = (-1, -1, "") := by
  decide

/-! ### Helper lemmas about the queue-position scan and the hashes -/

theorem queuePos_eq_zero_iff (l : List String) (x : String) :
    queuePos l x = 0 ↔ x ∉ l := by
  induction l with
  | nil => simp [queuePos]
  | cons y ys ih =>
    simp only [queuePos, List.mem_cons, not_or]
    by_cases hyx : y = x
    · simp [hyx]
    · rw [if_neg hyx]
      by_cases hp : queuePos ys x = 0
      · rw [if_pos hp]
        constructor
        · intro _
          exact ⟨fun h => hyx h.symm, ih.mp hp⟩
        · intro _
          rfl
      · rw [if_neg hp]
        constructor
        · intro h
          omega
        · intro h
          exact absurd (ih.mpr h.2) hp

theorem queuePos_ne_zero_of_mem {l : List String} {x : String} (h : x ∈ l) :
    queuePos l x ≠ 0 :=
  fun h0 => (queuePos_eq_zero_iff l x).mp h0 h

theorem queuePos_pos_of_mem {l : List String} {x : String} (h : x ∈ l) :
    1 ≤ queuePos l x := by
  have := queuePos_ne_zero_of_mem h
  omega

theorem queuePos_le_length (l : List String) (x : String) :
    queuePos l x ≤ l.length := by
  induction l with
  | nil => simp [queuePos]
  | cons y ys ih =>
    simp only [queuePos, List.length_cons]
    by_cases hyx : y = x
    · rw [if_pos hyx]; omega
    · rw [if_neg hyx]
      by_cases hp : queuePos ys x = 0
      · rw [if_pos hp]; omega
      · rw [if_neg hp]; omega

theorem queuePos_append_right {l : List String} {x : String}
    (l2 : List String) (h : queuePos l x ≠ 0) :
    queuePos (l ++ l2) x = queuePos l x := by
  induction l with
  | nil => simp [queuePos] at h
  | cons y ys ih =>
    simp only [queuePos, List.cons_append, List.append_eq] at h ⊢
    by_cases hyx : y = x
    · rw [if_pos hyx, if_pos hyx]
    · rw [if_neg hyx] at h
      by_cases hp : queuePos ys x = 0
      · rw [if_pos hp] at h; exact absurd rfl h
      · rw [ih hp, if_neg hyx]

theorem queuePos_cons_of_mem {x a : String} {ys : List String}
    (hne : x ≠ a) (hmem : a ∈ ys) :
    queuePos (x :: ys) a = queuePos ys a + 1 := by
  have hp : queuePos ys a ≠ 0 := queuePos_ne_zero_of_mem hmem
  simp only [queuePos, if_neg hne, if_neg hp]

theorem hget_mem {h : List (String × String)} {k v : String}
    (hh : hget h k = some v) : (k, v) ∈ h := by
  unfold hget at hh
  rcases Option.map_eq_some'.mp hh with ⟨kv, hfind, hv⟩
  have hmem := List.mem_of_find?_eq_some hfind
  have hk : kv.1 = k := by
    have := List.find?_some hfind
    simpa using this
  have : kv = (k, v) := by
    cases kv
    simp_all
  rwa [this] at hmem

theorem lookupIdentity_mem_of_wf {st : Store} {email phone uid : String}
    (hwf : StoreWf st) (h : lookupIdentity st email phone = some uid) :
    uid ∈ st.waitlist := by
  unfold lookupIdentity at h
  cases h1 : (if email ≠ "" then hget st.emails email else none) with
  | some u =>
    rw [h1] at h
    cases h
    by_cases he : email = ""
    · rw [if_neg (by simp [he])] at h1; cases h1
    · rw [if_pos (by simp [he])] at h1
      exact hwf.1 _ (hget_mem h1)
  | none =>
    rw [h1] at h
    simp only at h
    by_cases hp : phone = ""
    · rw [if_neg (by simp [hp])] at h; cases h
    · rw [if_pos (by simp [hp])] at h
      exact hwf.2 _ (hget_mem h)

/-! ### Concrete fixtures used by the witnesses -/

/-- A small well-formed store: one entry "u1" at position 1, indexed by the
email "a@x.com". -/
def stEx : Store := ⟨["u1"], [("a@x.com", "u1")], [], [("u1", "d1")]⟩

/-- A stand-in for the external validators that rejects every input. -/
def alwaysInvalid : String → IdentKind := fun _ => .invalid

/-- A stand-in for the external validators that accepts every input as the
fixed sanitized email `e` (how the wrapper behaves on a call whose trimmed
username validates as that email). -/
def alwaysEmail (e : String) : String → IdentKind := fun _ => .email e

/-! ### Claims -/

/-- Claim C1: for every store state, identity, metadata and capacity, the
atomic insert script behaves as specified — an already-indexed identity
returns its existing id and 1-based queue position with `existed = 1` and
overwrites the stored record; otherwise a queue at or above capacity fails
with the Full sentinel and leaves the store untouched; otherwise a new
entry is appended with position equal to the post-append queue length, the
identity is indexed, the record stored, and `existed = 0` returned. -/
theorem C1_insert_script_behavior (st : Store) (id email phone json : String)
    (limit : Int) :
    (∀ uid, lookupIdentity st email phone = some uid →
       luaInsertUser st id email phone limit json =
         ((Int.ofNat (queuePos st.waitlist uid), 1, uid),
          { st with users := hset st.users uid json }) ∧
       (StoreWf st →
          1 ≤ queuePos st.waitlist uid ∧
          queuePos st.waitlist uid ≤ st.waitlist.length)) ∧
    (lookupIdentity st email phone = none →
       (st.waitlist.length : Int) ≥ limit →
       luaInsertUser st id email phone limit json = ((-1, -1, ""), st)) ∧
    (lookupIdentity st email phone = none →
       (st.waitlist.length : Int) < limit →
       luaInsertUser st id email phone limit json =
         (((st.waitlist.length : Int) + 1, 0, id),
          { st with
             waitlist := st.waitlist ++ [id]
             emails := if email ≠ "" then hset st.emails email id else st.emails
             phones := if phone ≠ "" then hset st.phones phone id else st.phones
             users := hset st.users id json }) ∧
       (st.waitlist ++ [id]).length = st.waitlist.length + 1) := by
  refine ⟨?_, ?_, ?_⟩
  · intro uid h
    refine ⟨by simp [luaInsertUser, h], fun hwf => ?_⟩
    have hmem := lookupIdentity_mem_of_wf hwf h
    exact ⟨queuePos_pos_of_mem hmem, queuePos_le_length st.waitlist uid⟩
  · intro h hge
    simp [luaInsertUser, h, hge]
  · intro h hlt
    refine ⟨?_, by simp⟩
    simp [luaInsertUser, h, not_le.mpr hlt]

/-- Witness for C1: in the fixture store, re-inserting the indexed email
returns the existing id at its position 1 and only overwrites the record,
and the hypotheses of the theorem hold at this input. -/
theorem C1_insert_script_behavior_witness :
    (luaInsertUser stEx "u2" "a@x.com" "" 5 "d2" =
       ((Int.ofNat (queuePos stEx.waitlist "u1"), 1, "u1"),
        { stEx with users := hset stEx.users "u1" "d2" })) ∧
    (1 ≤ queuePos stEx.waitlist "u1" ∧
     queuePos stEx.waitlist "u1" ≤ stEx.waitlist.length) :=
  ⟨((C1_insert_script_behavior stEx "u2" "a@x.com" "" "d2" 5).1
      "u1" (by decide)).1,
   ((C1_insert_script_behavior stEx "u2" "a@x.com" "" "d2" 5).1
      "u1" (by decide)).2 (by decide)⟩

/-! ### Reachability lemmas for the capacity and density invariants -/

theorem stepCall_length_le {K : Nat} (st : Store) (c : CallArgs)
    (h : st.waitlist.length ≤ K) : (stepCall K st c).waitlist.length ≤ K := by
  unfold stepCall luaInsertUser
  cases hl : lookupIdentity st c.email c.phone with
  | some uid => simpa using h
  | none =>
    simp only
    by_cases hge : (st.waitlist.length : Int) ≥ (K : Int)
    · simp only [if_pos hge]
      simpa using h
    · have hlt : st.waitlist.length < K := by
        have := not_le.mp hge
        exact_mod_cast this
      simp only [if_neg hge, List.length_append, List.length_cons,
        List.length_nil]
      omega

theorem foldl_length_le (K : Nat) (calls : List CallArgs) :
    ∀ st : Store, st.waitlist.length ≤ K →
      (calls.foldl (stepCall K) st).waitlist.length ≤ K := by
  induction calls with
  | nil => intro st h; simpa using h
  | cons c rest ih =>
    intro st h
    exact ih _ (stepCall_length_le st c h)

/-- Claim C2: with a fixed capacity `K`, starting from the empty store, any
sequence of insert-script calls leaves the queue with at most `K` entries,
and once the queue holds `K` entries, a call for any identity that is not
yet indexed returns the Full sentinel and leaves the store unchanged. -/
theorem C2_capacity_enforcement (K : Nat) (calls : List CallArgs) :
    (runCalls K calls).waitlist.length ≤ K ∧
    (∀ id email phone json,
       lookupIdentity (runCalls K calls) email phone = none →
       (runCalls K calls).waitlist.length = K →
       luaInsertUser (runCalls K calls) id email phone (K : Int) json =
         ((-1, -1, ""), runCalls K calls)) := by
  constructor
  · exact foldl_length_le K calls emptyStore (by simp [emptyStore])
  · intro id email phone json hnone hfull
    have hge : ((runCalls K calls).waitlist.length : Int) ≥ (K : Int) := by
      exact_mod_cast hfull.ge
    simp [luaInsertUser, hnone, hge]

/-- Witness for C2: with capacity 1 and one successful admission, a second,
distinct identity is rejected with the Full sentinel. -/
theorem C2_capacity_enforcement_witness :
    lookupIdentity (runCalls 1 [⟨"u1", "a@x.com", "", "d1"⟩]) "b@x.com" "" =
      none ∧
    (runCalls 1 [⟨"u1", "a@x.com", "", "d1"⟩]).waitlist.length = 1 ∧
    luaInsertUser (runCalls 1 [⟨"u1", "a@x.com", "", "d1"⟩]) "u2" "b@x.com" ""
        ((1 : Nat) : Int) "d2" =
      ((-1, -1, ""), runCalls 1 [⟨"u1", "a@x.com", "", "d1"⟩]) :=
  ⟨by decide, by decide,
   (C2_capacity_enforcement 1 [⟨"u1", "a@x.com", "", "d1"⟩]).2
     "u2" "b@x.com" "" "d2" (by decide) (by decide)⟩

theorem stepCall_waitlist_cases (K : Nat) (st : Store) (c : CallArgs) :
    (stepCall K st c).waitlist = st.waitlist ∨
    (stepCall K st c).waitlist = st.waitlist ++ [c.id] := by
  unfold stepCall luaInsertUser
  cases hl : lookupIdentity st c.email c.phone with
  | some uid => left; rfl
  | none =>
    by_cases hge : (st.waitlist.length : Int) ≥ (K : Int)
    · left; simp [hge]
    · right; simp [hge]

theorem applyOp_queuePos_stable (st : Store) (op : StoreOp) (uid : String)
    (h : queuePos st.waitlist uid ≠ 0) :
    queuePos (applyOp st op).waitlist uid = queuePos st.waitlist uid := by
  cases op with
  | insert c limit =>
    have hstep : applyOp st (.insert c limit) =
        (luaInsertUser st c.id c.email c.phone limit c.json).2 := rfl
    rw [hstep]
    unfold luaInsertUser
    cases hl : lookupIdentity st c.email c.phone with
    | some u => rfl
    | none =>
      by_cases hge : (st.waitlist.length : Int) ≥ limit
      · rw [if_pos hge]
      · rw [if_neg hge]
        exact queuePos_append_right [c.id] h
  | posByIdentifier i => rfl
  | onWaitlist i => rfl
  | posById i => rfl

theorem foldl_nodup_subset (K : Nat) :
    ∀ (calls : List CallArgs) (st : Store) (used : List String),
      st.waitlist.Nodup →
      (∀ x ∈ st.waitlist, x ∈ used) →
      (∀ c ∈ calls, c.id ∉ used) →
      (calls.map CallArgs.id).Nodup →
      (calls.foldl (stepCall K) st).waitlist.Nodup ∧
      (∀ x ∈ (calls.foldl (stepCall K) st).waitlist,
         x ∈ used ++ calls.map CallArgs.id) := by
  intro calls
  induction calls with
  | nil =>
    intro st used h1 h2 _ _
    exact ⟨h1, fun x hx => by simpa using h2 x hx⟩
  | cons c rest ih =>
    intro st used h1 h2 h3 h4
    have hcid : c.id ∉ used := h3 c (List.mem_cons_self c rest)
    have h3' : ∀ c2 ∈ rest, c2.id ∉ used ++ [c.id] := by
      intro c2 hc2
      have hne : c2.id ≠ c.id := by
        intro he
        have : c.id ∈ rest.map CallArgs.id := by
          rw [← he]
          exact List.mem_map_of_mem CallArgs.id hc2
        exact (List.nodup_cons.mp (by simpa using h4)).1 this
      simp only [List.mem_append, List.mem_singleton]
      push_neg
      exact ⟨h3 c2 (List.mem_cons_of_mem c hc2), hne⟩
    have h4' : (rest.map CallArgs.id).Nodup :=
      (List.nodup_cons.mp (by simpa using h4)).2
    rcases stepCall_waitlist_cases K st c with hw | hw
    · have hres := ih (stepCall K st c) used (by rw [hw]; exact h1)
        (by rw [hw]; exact h2)
        (fun c2 hc2 => h3 c2 (List.mem_cons_of_mem c hc2)) h4'
      refine ⟨hres.1, fun x hx => ?_⟩
      have := hres.2 x hx
      simp only [List.mem_append, List.map_cons, List.mem_cons] at this ⊢
      tauto
    · have hnotin : c.id ∉ st.waitlist := fun hin => hcid (h2 c.id hin)
      have hnodup2 : (st.waitlist ++ [c.id]).Nodup := by
        simp [List.nodup_append, h1, hnotin]
      have hsub2 : ∀ x ∈ st.waitlist ++ [c.id], x ∈ used ++ [c.id] := by
        intro x hx
        simp only [List.mem_append, List.mem_singleton] at hx ⊢
        rcases hx with hx | hx
        · exact Or.inl (h2 x hx)
        · exact Or.inr hx
      have hres := ih (stepCall K st c) (used ++ [c.id])
        (by rw [hw]; exact hnodup2) (by rw [hw]; exact hsub2) h3' h4'
      refine ⟨hres.1, fun x hx => ?_⟩
      have := hres.2 x hx
      simp only [List.mem_append, List.map_cons, List.mem_cons,
        List.mem_singleton] at this ⊢
      tauto

theorem map_queuePos_of_nodup :
    ∀ l : List String, l.Nodup →
      l.map (queuePos l) = List.range' 1 l.length := by
  intro l
  induction l with
  | nil => intro _; simp
  | cons y ys ih =>
    intro h
    rcases List.nodup_cons.mp h with ⟨hy, hys⟩
    simp only [List.map_cons, List.length_cons]
    rw [List.range'_succ]
    congr 1
    · simp [queuePos]
    · have hpt : ∀ a ∈ ys, queuePos (y :: ys) a = 1 + queuePos ys a := by
        intro a ha
        have hne : y ≠ a := fun he => hy (he ▸ ha)
        rw [queuePos_cons_of_mem hne ha]
        omega
      rw [List.map_congr_left hpt]
      have hcomp : ys.map (fun a => 1 + queuePos ys a) =
          (ys.map (queuePos ys)).map (fun x => 1 + x) := by
        simp [List.map_map, Function.comp]
      rw [hcomp, ih hys]
      have hmr := List.map_add_range' 1 1 ys.length 1
      simp only [show (1 : Nat) + 1 = 2 by rfl] at hmr
      exact hmr

/-- Claim C3: after any sequence of insert-script calls from the empty
store whose fresh ids are pairwise distinct, the positions of the queued
entries are exactly `1 .. len(Queue)`, each exactly once (the position map
over the queue is the range `[1, ..., N]`); and the position of an entry,
once non-zero, is unchanged by every later admission-store operation. -/
theorem C3_position_density_and_stability (K : Nat) (calls : List CallArgs)
    (hids : (calls.map CallArgs.id).Nodup) :
    ((runCalls K calls).waitlist.map (queuePos (runCalls K calls).waitlist) =
       List.range' 1 (runCalls K calls).waitlist.length) ∧
    (∀ (st : Store) (op : StoreOp) (uid : String),
       queuePos st.waitlist uid ≠ 0 →
       queuePos (applyOp st op).waitlist uid = queuePos st.waitlist uid) := by
  constructor
  · have h := foldl_nodup_subset K calls emptyStore []
      (by simp [emptyStore]) (by simp [emptyStore]) (by simp) hids
    exact map_queuePos_of_nodup _ h.1
  · intro st op uid h
    exact applyOp_queuePos_stable st op uid h

/-- The two-admission call sequence used by the C3 witness. -/
def demoCalls : List CallArgs :=
  [⟨"u1", "a@x.com", "", "d1"⟩, ⟨"u2", "b@x.com", "", "d2"⟩]

/-- Witness for C3: after admitting two distinct identities with distinct
fresh ids, the position map over the queue is `[1, 2]`. -/
theorem C3_position_density_and_stability_witness :
    (demoCalls.map CallArgs.id).Nodup ∧
    ((runCalls 5 demoCalls).waitlist.map
        (queuePos (runCalls 5 demoCalls).waitlist) =
      List.range' 1 (runCalls 5 demoCalls).waitlist.length) :=
  ⟨by decide, (C3_position_density_and_stability 5 demoCalls (by decide)).1⟩

/-- Claim C4: failing admission attempts leave the store untouched — an
identifier that classifies as neither a valid email nor a valid phone makes
`insertUser` return before any store access (script not evaluated, state
unchanged), and a new identity arriving at capacity makes it throw the Full
error with the state exactly as before the call. -/
theorem C4_failed_admission_frame (classify : String → IdentKind)
    (fid : String) (st : Store) (username : String) (limit : Int)
    (metadata : String) :
    (classify username.trim = .invalid →
       tsInsertUser classify fid st username limit metadata =
         (.ok sentinelResult, st, false)) ∧
    (∀ e p, classifyArgs (classify username.trim) = some (e, p) →
       ¬(e = "" ∧ p = "") →
       lookupIdentity st e p = none →
       (st.waitlist.length : Int) ≥ limit →
       tsInsertUser classify fid st username limit metadata =
         (.fullError limit, st, true)) := by
  constructor
  · intro h
    simp [tsInsertUser, h, classifyArgs]
  · intro e p hc hne hnone hge
    have hlua : luaInsertUser st fid e p limit (userDataJson e p metadata) =
        ((-1, -1, ""), st) := by
      simp [luaInsertUser, hnone, hge]
    simp [tsInsertUser, hc, hne, hlua]

/-- Witness for C4: an unclassifiable input returns the sentinel without a
script call, and a distinct valid email hitting a full one-slot waitlist
throws with the store unchanged. -/
theorem C4_failed_admission_frame_witness :
    (tsInsertUser alwaysInvalid "u9" stEx "not-an-identifier" 1 "" =
       (.ok sentinelResult, stEx, false)) ∧
    (tsInsertUser (alwaysEmail "b@x.com") "u9" stEx "b@x.com" 1 "" =
       (.fullError 1, stEx, true)) :=
  ⟨(C4_failed_admission_frame alwaysInvalid "u9" stEx "not-an-identifier" 1
      "").1 (by decide),
   (C4_failed_admission_frame (alwaysEmail "b@x.com") "u9" stEx "b@x.com" 1
      "").2 "b@x.com" "" (by decide) (by decide) (by decide) (by decide)⟩

/-- Claim C9: enqueue-or-lookup is idempotent per identity — when the
identity is already indexed to `uid` and `uid` sits in the queue, a further
`insertUser` call returns the same id and its (positive) position with
`already_existed = true`, changes only the stored per-entry record, and
leaves the queue and both identity indexes unchanged. -/
theorem C9_idempotent_reinsert (classify : String → IdentKind)
    (fid : String) (st : Store) (username : String) (limit : Int)
    (metadata : String) (e p uid : String)
    (hc : classifyArgs (classify username.trim) = some (e, p))
    (hfound : lookupIdentity st e p = some uid)
    (hmem : uid ∈ st.waitlist) :
    tsInsertUser classify fid st username limit metadata =
      (.ok ⟨uid, Int.ofNat (queuePos st.waitlist uid), true⟩,
       { st with users := hset st.users uid (userDataJson e p metadata) },
       true) ∧
    1 ≤ queuePos st.waitlist uid := by
  have hne : ¬(e = "" ∧ p = "") := by
    rintro ⟨he, hp⟩
    rw [he, hp] at hfound
    simp [lookupIdentity] at hfound
  have hlua : luaInsertUser st fid e p limit (userDataJson e p metadata) =
      ((Int.ofNat (queuePos st.waitlist uid), 1, uid),
       { st with users := hset st.users uid (userDataJson e p metadata) }) := by
    simp [luaInsertUser, hfound]
  have hpos1 : (Int.ofNat (queuePos st.waitlist uid)) ≠ -1 := by
    intro hcontra
    have h0 : (0 : Int) ≤ Int.ofNat (queuePos st.waitlist uid) :=
      Int.ofNat_nonneg _
    rw [hcontra] at h0
    norm_num at h0
  constructor
  · simp [tsInsertUser, hc, hne, hlua, hpos1]
  · exact queuePos_pos_of_mem hmem

/-- Witness for C9: re-inserting the already-indexed email of the fixture
store returns the stored id "u1" at position 1 with the existed flag. -/
theorem C9_idempotent_reinsert_witness :
    tsInsertUser (alwaysEmail "a@x.com") "u9" stEx "a@x.com" 5 "m2" =
      (.ok ⟨"u1", Int.ofNat (queuePos stEx.waitlist "u1"), true⟩,
       { stEx with users := hset stEx.users "u1" (userDataJson "a@x.com" "" "m2") },
       true) ∧
    1 ≤ queuePos stEx.waitlist "u1" :=
  C9_idempotent_reinsert (alwaysEmail "a@x.com") "u9" stEx "a@x.com" 5 "m2"
    "a@x.com" "" "u1" (by decide) (by decide) (by decide)

/-- Claim C10: invalid identities and capacity exhaustion surface
differently — an unclassifiable identifier produces no error but the
sentinel result with empty id, which the add-to-waitlist controller turns
into `success=false, position=0`; a full waitlist instead makes
`insertUser` throw the Full error. -/
theorem C10_invalid_vs_full_signalling (classify : String → IdentKind)
    (fid : String) (st : Store) (username : String) (limit : Int)
    (metadata : String) :
    (classify username.trim = .invalid →
       tsInsertUser classify fid st username limit metadata =
         (.ok ⟨"", 0, false⟩, st, false) ∧
       addToWaitlistRespond
           (tsInsertUser classify fid st username limit metadata).1 =
         ⟨200, false, 0, false⟩) ∧
    (∀ e p, classifyArgs (classify username.trim) = some (e, p) →
       ¬(e = "" ∧ p = "") →
       lookupIdentity st e p = none →
       (st.waitlist.length : Int) ≥ limit →
       (tsInsertUser classify fid st username limit metadata).1 =
         .fullError limit) := by
  constructor
  · intro h
    have hts : tsInsertUser classify fid st username limit metadata =
        (.ok sentinelResult, st, false) := by
      simp [tsInsertUser, h, classifyArgs]
    refine ⟨hts, ?_⟩
    rw [hts]
    simp [addToWaitlistRespond, sentinelResult]
  · intro e p hc hne hnone hge
    have h4 := (C4_failed_admission_frame classify fid st username limit
      metadata).2 e p hc hne hnone hge
    rw [h4]

/-- Witness for C10: the sentinel-and-success-false path for an invalid
identifier, and the thrown error for a full waitlist, at concrete inputs. -/
theorem C10_invalid_vs_full_signalling_witness :
    (tsInsertUser alwaysInvalid "u9" stEx "not-an-identifier" 3 "" =
       (.ok ⟨"", 0, false⟩, stEx, false) ∧
     addToWaitlistRespond
         (tsInsertUser alwaysInvalid "u9" stEx "not-an-identifier" 3 "").1 =
       ⟨200, false, 0, false⟩) ∧
    (tsInsertUser (alwaysEmail "b@x.com") "u9" stEx "b@x.com" 1 "").1 =
      .fullError 1 :=
  ⟨(C10_invalid_vs_full_signalling alwaysInvalid "u9" stEx
      "not-an-identifier" 3 "").1 (by decide),
   (C10_invalid_vs_full_signalling (alwaysEmail "b@x.com") "u9" stEx
      "b@x.com" 1 "").2 "b@x.com" "" (by decide) (by decide) (by decide)
     (by decide)⟩

/-! ### The register-user dispatch, organized by evaluation outcome -/

theorem insertHandler_flags (classify : String → IdentKind) (fid : String)
    (st : Store) (ident : String) (lim : Int) :
    (insertHandler classify fid st ident lim).insertCalled = true ∧
    (insertHandler classify fid st ident lim).commitCalled = false := by
  unfold insertHandler
  rcases tsInsertUser classify fid st ident lim "" with ⟨out, st2, b⟩
  cases out <;> exact ⟨rfl, rfl⟩

theorem processRegister_cases (classify : String → IdentKind)
    (fid : String) (ue : Bool) (st : Store) (ident : String) (s : Settings)
    (rs : Bool) :
    processRegister classify fid ue st ident s rs =
      match registerEval ue (waitlistPositionInt st ident) s with
      | .alreadyRegistered =>
          ⟨⟨200, true, decide (0 < waitlistPositionInt st ident),
            waitlistPositionInt st ident, none⟩, st, false, false⟩
      | .capacityExhausted =>
          insertHandler classify fid st ident s.waitlist_limit
      | .waitlistOnlyIneligible =>
          if ¬ 0 < waitlistPositionInt st ident then
            insertHandler classify fid st ident s.waitlist_limit
          else
            ⟨⟨200, false, true, waitlistPositionInt st ident, none⟩,
             st, false, false⟩
      | .blockedNegativeCutoff =>
          ⟨⟨200, false, true, waitlistPositionInt st ident, none⟩,
           st, false, false⟩
      | .blockedBeyondCutoff =>
          ⟨⟨200, false, true, waitlistPositionInt st ident, none⟩,
           st, false, false⟩
      | .eligibleToRegister =>
          if rs then
            ⟨⟨200, true, decide (0 < waitlistPositionInt st ident),
              waitlistPositionInt st ident, none⟩, st, false, true⟩
          else
            ⟨⟨500, false, decide (0 < waitlistPositionInt st ident),
              waitlistPositionInt st ident, none⟩, st, false, true⟩ := by
  unfold processRegister registerEval
  split_ifs <;> rfl

/-- Claim C5: for a positive position, the can-sign-up check (line 314) and
the register-flow eligibility test (lines 486-488) both agree with the
spec's cutoff test `signupCutoff >= 0 AND position <= signupCutoff`; a
position of 0 is not subject to the cutoff test — the register evaluation
never produces a cutoff block for it. -/
theorem C5_cutoff_test_agreement (cutoff pos : Int) :
    (0 < pos →
       ((canSignUpCheck cutoff pos ↔ cutoffEligible pos cutoff) ∧
        (isWaitlistEligible pos cutoff ↔ cutoffEligible pos cutoff))) ∧
    (pos = 0 → ∀ (ue : Bool) (s : Settings),
       registerEval ue pos s ≠ .blockedNegativeCutoff ∧
       registerEval ue pos s ≠ .blockedBeyondCutoff) := by
  constructor
  · intro hpos
    unfold canSignUpCheck isWaitlistEligible cutoffEligible
    constructor
    · constructor
      · rintro ⟨h1, h2⟩
        exact ⟨hpos, h1, h2⟩
      · rintro ⟨_, h1, h2⟩
        exact ⟨h1, h2⟩
    · constructor
      · rintro ⟨hp, h1, h2⟩
        exact ⟨hp, by omega, h2⟩
      · rintro ⟨hp, h1, h2⟩
        exact ⟨hp, by omega, h2⟩
  · intro hpos ue s
    subst hpos
    unfold registerEval
    split_ifs with h1 h2 h3 h4
    · exact ⟨fun h => Outcome.noConfusion h, fun h => Outcome.noConfusion h⟩
    · exact ⟨fun h => Outcome.noConfusion h, fun h => Outcome.noConfusion h⟩
    · exact ⟨fun h => Outcome.noConfusion h, fun h => Outcome.noConfusion h⟩
    · exact absurd h4.1 (by omega)
    · exact ⟨fun h => Outcome.noConfusion h, fun h => Outcome.noConfusion h⟩

/-- Witness for C5: at cutoff 5 and position 2 the three eligibility tests
agree. -/
theorem C5_cutoff_test_agreement_witness :
    (0 : Int) < 2 ∧
    ((canSignUpCheck 5 2 ↔ cutoffEligible 2 5) ∧
     (isWaitlistEligible 2 5 ↔ cutoffEligible 2 5)) :=
  ⟨by norm_num, (C5_cutoff_test_agreement 5 2).1 (by norm_num)⟩

/-- Claim C6: the register-user evaluation is exactly the spec's
first-match-wins ordering — AlreadyRegistered, then CapacityExhausted
(`registrationCap > 0 AND registeredCount >= registrationCap`), then
WaitlistOnlyIneligible (waitlist-only mode and not cutoff-eligible), then
BlockedByCutoff (positive position, not cutoff-eligible, negative-cutoff
reason before position-beyond-cutoff), else EligibleToRegister. -/
theorem C6_register_eval_matches_spec_order (ue : Bool) (pos : Int)
    (s : Settings) : registerEval ue pos s = evaluateSpec ue pos s := by
  have hiff : isWaitlistEligible pos s.signup_cutoff ↔
      cutoffEligible pos s.signup_cutoff := by
    unfold isWaitlistEligible cutoffEligible
    constructor
    · rintro ⟨hp, h1, h2⟩
      exact ⟨hp, by omega, h2⟩
    · rintro ⟨hp, h1, h2⟩
      exact ⟨hp, by omega, h2⟩
  unfold registerEval evaluateSpec
  cases ue with
  | true => rfl
  | false =>
    rw [if_neg (by simp : ¬(false = true)), if_neg (by simp : ¬(false = true))]
    by_cases hcap : userLimitReached s
    · have hcap2 : 0 < s.signed_up_user_limit ∧
          s.signed_up_user_limit ≤ s.signed_up_users := hcap
      rw [if_pos hcap, if_pos hcap2]
    · have hcap2 : ¬(0 < s.signed_up_user_limit ∧
          s.signed_up_user_limit ≤ s.signed_up_users) := hcap
      rw [if_neg hcap, if_neg hcap2]
      by_cases hwl : s.allowed_registrations = "waitlist" ∧
          ¬ cutoffEligible pos s.signup_cutoff
      · rw [if_pos ⟨hwl.1, fun h => hwl.2 (hiff.mp h)⟩, if_pos hwl]
      · rw [if_neg (fun h => hwl ⟨h.1, fun hc => h.2 (hiff.mpr hc)⟩),
          if_neg hwl]
        by_cases hp : 0 < pos
        · by_cases hneg : s.signup_cutoff < 0
          · have hnel : ¬ cutoffEligible pos s.signup_cutoff := by
              unfold cutoffEligible
              omega
            rw [if_pos ⟨hp, hneg⟩, if_pos ⟨hp, hnel⟩, if_pos hneg]
          · by_cases hbey : s.signup_cutoff < pos
            · have hnel : ¬ cutoffEligible pos s.signup_cutoff := by
                unfold cutoffEligible
                omega
              rw [if_neg (fun h => hneg h.2), if_pos ⟨hp, hbey⟩,
                if_pos ⟨hp, hnel⟩, if_neg hneg]
            · have hel : cutoffEligible pos s.signup_cutoff := by
                unfold cutoffEligible
                exact ⟨hp, by omega, by omega⟩
              rw [if_neg (fun h => hneg h.2), if_neg (fun h => hbey h.2),
                if_neg (fun h => h.2 hel)]
        · rw [if_neg (fun h => hp h.1), if_neg (fun h => hp h.1),
            if_neg (fun h => hp h.1)]

/-- Counterexample to C7 as stated: with one identity at position 1,
registration mode "all" and a negative cutoff, the evaluation outcome is
BlockedByCutoff (negative-cutoff reason), yet the orchestrator does not
call `insertUser` — `checkWaitlistRegistrationBlocks` answers with the
known position and performs no store call. -/
theorem C7_counterexample_blocked_no_insert :
    registerEval false (waitlistPositionInt stEx "a@x.com")
        ⟨10, -1, 0, 0, "all"⟩ = .blockedNegativeCutoff ∧
    (processRegister alwaysInvalid "u9" false stEx "a@x.com"
        ⟨10, -1, 0, 0, "all"⟩ true).insertCalled = false ∧
    (processRegister alwaysInvalid "u9" false stEx "a@x.com"
        ⟨10, -1, 0, 0, "all"⟩ true).store = stEx := by
  decide

/-- Claim C7 (amended): on a CapacityExhausted outcome the orchestrator
always calls `insertUser`; on WaitlistOnlyIneligible it calls `insertUser`
exactly when the identity is not already on the waitlist and otherwise
answers with the known position and no store call; on BlockedByCutoff it
never calls `insertUser` and answers not-registered with the known
position; whenever `insertUser` is called and returns normally, the
not-registered response carries the returned position and the
already-existed (newly-admitted) flag. -/
theorem C7_not_registered_paths (classify : String → IdentKind)
    (fid : String) (ue : Bool) (st : Store) (ident : String) (s : Settings)
    (rs : Bool) :
    (registerEval ue (waitlistPositionInt st ident) s = .capacityExhausted →
       processRegister classify fid ue st ident s rs =
         insertHandler classify fid st ident s.waitlist_limit) ∧
    (registerEval ue (waitlistPositionInt st ident) s =
        .waitlistOnlyIneligible →
       processRegister classify fid ue st ident s rs =
         (if ¬ 0 < waitlistPositionInt st ident then
            insertHandler classify fid st ident s.waitlist_limit
          else
            ⟨⟨200, false, true, waitlistPositionInt st ident, none⟩,
             st, false, false⟩)) ∧
    ((registerEval ue (waitlistPositionInt st ident) s =
        .blockedNegativeCutoff ∨
      registerEval ue (waitlistPositionInt st ident) s =
        .blockedBeyondCutoff) →
       processRegister classify fid ue st ident s rs =
         ⟨⟨200, false, true, waitlistPositionInt st ident, none⟩,
          st, false, false⟩) ∧
    (∀ r st2 b,
       tsInsertUser classify fid st ident s.waitlist_limit "" =
         (.ok r, st2, b) →
       insertHandler classify fid st ident s.waitlist_limit =
         ⟨⟨200, false, decide (r.id ≠ ""), r.position,
           some r.already_existed⟩, st2, true, false⟩) := by
  have hc := processRegister_cases classify fid ue st ident s rs
  refine ⟨?_, ?_, ?_, ?_⟩
  · intro h
    rw [hc, h]
  · intro h
    rw [hc, h]
  · intro h
    rcases h with h | h <;> rw [hc, h]
  · intro r st2 b hts
    unfold insertHandler
    rw [hts]

/-- Witness for C7 (amended): a concrete CapacityExhausted call — the user
cap is hit, the new email is admitted to the waitlist at position 2, and
the response carries that position with the newly-admitted flag. -/
theorem C7_not_registered_paths_witness :
    registerEval false (waitlistPositionInt stEx "b@x.com")
        ⟨5, 3, 10, 10, "all"⟩ = .capacityExhausted ∧
    processRegister (alwaysEmail "b@x.com") "u9" false stEx "b@x.com"
        ⟨5, 3, 10, 10, "all"⟩ true =
      insertHandler (alwaysEmail "b@x.com") "u9" stEx "b@x.com"
        (5 : Int) :=
  ⟨by decide,
   (C7_not_registered_paths (alwaysEmail "b@x.com") "u9" false stEx
      "b@x.com" ⟨5, 3, 10, 10, "all"⟩ true).1 (by decide)⟩

/-- Claim C8: every register-user call performs at most one of the two
mutating side effects — it never both calls `insertUser` and attempts the
external registration commit; the already-registered path performs neither
and leaves the store as is; and whenever the commit is attempted (whether
it succeeds or fails), no waitlist mutation happens in the same call. -/
theorem C8_single_side_effect (classify : String → IdentKind)
    (fid : String) (ue : Bool) (st : Store) (ident : String) (s : Settings)
    (rs : Bool) :
    ((processRegister classify fid ue st ident s rs).insertCalled = false ∨
     (processRegister classify fid ue st ident s rs).commitCalled = false) ∧
    (ue = true →
       processRegister classify fid ue st ident s rs =
         ⟨⟨200, true, decide (0 < waitlistPositionInt st ident),
           waitlistPositionInt st ident, none⟩, st, false, false⟩) ∧
    ((processRegister classify fid ue st ident s rs).commitCalled = true →
       (processRegister classify fid ue st ident s rs).store = st ∧
       (processRegister classify fid ue st ident s rs).insertCalled =
         false) := by
  have hc := processRegister_cases classify fid ue st ident s rs
  have hif := insertHandler_flags classify fid st ident s.waitlist_limit
  cases hre : registerEval ue (waitlistPositionInt st ident) s <;>
    rw [hre] at hc <;> rw [hc]
  case alreadyRegistered =>
    exact ⟨Or.inl rfl, fun _ => rfl, fun h => Bool.noConfusion h⟩
  case capacityExhausted =>
    refine ⟨Or.inr hif.2, fun hue => ?_, fun h => ?_⟩
    · rw [hue] at hre
      simp [registerEval] at hre
    · rw [hif.2] at h
      exact Bool.noConfusion h
  case waitlistOnlyIneligible =>
    by_cases hp : 0 < waitlistPositionInt st ident
    · rw [if_neg (not_not_intro hp)]
      refine ⟨Or.inl rfl, fun hue => ?_, fun h => Bool.noConfusion h⟩
      rw [hue] at hre
      simp [registerEval] at hre
    · rw [if_pos hp]
      refine ⟨Or.inr hif.2, fun hue => ?_, fun h => ?_⟩
      · rw [hue] at hre
        simp [registerEval] at hre
      · rw [hif.2] at h
        exact Bool.noConfusion h
  case blockedNegativeCutoff =>
    refine ⟨Or.inl rfl, fun hue => ?_, fun h => Bool.noConfusion h⟩
    rw [hue] at hre
    simp [registerEval] at hre
  case blockedBeyondCutoff =>
    refine ⟨Or.inl rfl, fun hue => ?_, fun h => Bool.noConfusion h⟩
    rw [hue] at hre
    simp [registerEval] at hre
  case eligibleToRegister =>
    cases rs with
    | true =>
      rw [if_pos rfl]
      refine ⟨Or.inl rfl, fun hue => ?_, fun _ => ⟨rfl, rfl⟩⟩
      rw [hue] at hre
      simp [registerEval] at hre
    | false =>
      rw [if_neg (by simp : ¬(false = true))]
      refine ⟨Or.inl rfl, fun hue => ?_, fun _ => ⟨rfl, rfl⟩⟩
      rw [hue] at hre
      simp [registerEval] at hre

/-- Witness for C8: the already-registered path at a concrete input mutates
nothing, and a concrete failed commit leaves the store untouched with no
insert. -/
theorem C8_single_side_effect_witness :
    (true = true ∧
     processRegister alwaysInvalid "u9" true stEx "a@x.com"
         ⟨5, 3, 0, 0, "all"⟩ true =
       ⟨⟨200, true, decide (0 < waitlistPositionInt stEx "a@x.com"),
         waitlistPositionInt stEx "a@x.com", none⟩, stEx, false, false⟩) ∧
    ((processRegister alwaysInvalid "u9" false stEx "b@x.com"
         ⟨5, 3, 0, 0, "all"⟩ false).commitCalled = true ∧
     (processRegister alwaysInvalid "u9" false stEx "b@x.com"
         ⟨5, 3, 0, 0, "all"⟩ false).store = stEx ∧
     (processRegister alwaysInvalid "u9" false stEx "b@x.com"
         ⟨5, 3, 0, 0, "all"⟩ false).insertCalled = false) :=
  ⟨⟨rfl,
    (C8_single_side_effect alwaysInvalid "u9" true stEx "a@x.com"
       ⟨5, 3, 0, 0, "all"⟩ true).2.1 rfl⟩,
   ⟨by decide,
    (C8_single_side_effect alwaysInvalid "u9" false stEx "b@x.com"
       ⟨5, 3, 0, 0, "all"⟩ false).2.2 (by decide)⟩⟩
